import Mathlib

/-!
# freetype-gl-cpp: the text fragment shader and the text object setters

A shallow embedding of `src/freetype-gl-cpp.h`:

* the GLSL fragment stage `shader_text_frag` (`energy_distribution` and `main`),
  with `float` arithmetic taken exactly, in an arbitrary linearly ordered field `K`
  (instantiated at `ℚ` for concrete evaluations and at `ℝ` for the power function);
  the GLSL built-in `pow` and the sampler `tex` are parameters of the embedding;
* the class `FreetypeGlText`: its three inline setters, and the member functions it only
  declares (`render` and the two Eigen overloads), whose bodies follow the specification.
-/

namespace ftgl

/-! ## GLSL vectors and built-ins -/

/-- GLSL `vec2`. -/
structure Vec2 (K : Type) where
  x : K
  y : K
deriving DecidableEq, Repr

/-- GLSL `vec3`, with the colour accessors. -/
structure Vec3 (K : Type) where
  r : K
  g : K
  b : K
deriving DecidableEq, Repr

/-- GLSL `vec4`, with the colour accessors. -/
structure Vec4 (K : Type) where
  r : K
  g : K
  b : K
  a : K
deriving DecidableEq, Repr

section glsl

variable {K : Type} [LinearOrderedField K]

/-- GLSL `vec2 + vec2`. -/
def Vec2.add (u v : Vec2 K) : Vec2 K := ⟨u.x + v.x, u.y + v.y⟩

/-- GLSL `vec2 * vec2`, component by component. -/
def Vec2.mul (u v : Vec2 K) : Vec2 K := ⟨u.x * v.x, u.y * v.y⟩

/-- GLSL `float * vec4`. -/
def Vec4.smul (t : K) (v : Vec4 K) : Vec4 K := ⟨t * v.r, t * v.g, t * v.b, t * v.a⟩

/-- GLSL `vec4 * float`. -/
def Vec4.scale (v : Vec4 K) (t : K) : Vec4 K := ⟨v.r * t, v.g * t, v.b * t, v.a * t⟩

/-- GLSL `vec4 + vec4`. -/
def Vec4.add (u v : Vec4 K) : Vec4 K := ⟨u.r + v.r, u.g + v.g, u.b + v.b, u.a + v.a⟩

/-- GLSL `pow(vec4, vec4(e))`: the scalar built-in `pow` on every component. -/
def Vec4.pow (pow : K → K → K) (v : Vec4 K) (e : K) : Vec4 K :=
  ⟨pow v.r e, pow v.g e, pow v.b e, pow v.a e⟩

/-- GLSL `mix(x, y, a)`, which the language defines as `x*(1-a) + y*a`. -/
def mix (x y a : K) : K := x * (1 - a) + y * a

/-- The `xy` swizzle of a `vec3`. -/
def Vec3.xy (p : Vec3 K) : Vec2 K := ⟨p.r, p.g⟩

/-- The `z` swizzle of a `vec3`. -/
def Vec3.z (p : Vec3 K) : K := p.b

end glsl

/-! ## The fragment stage `shader_text_frag` -/

namespace shader_text_frag

section frag

variable {K : Type} [LinearOrderedField K]

set_option linter.unusedVariables false

/-- The local `primary` of `energy_distribution`: `1.0/3.0`. -/
def primary : K := 1 / 3

/-- The local `secondary` of `energy_distribution`: `1.0/3.0`. -/
def secondary : K := 1 / 3

/-- The local `tertiary` of `energy_distribution`: `0.0`. -/
def tertiary : K := 0

/-- The function `energy_distribution( vec4 previous, vec4 current, vec4 next )`. -/
def energy_distribution (previous current next : Vec4 K) : Vec3 K :=
  let r :=
    tertiary * previous.g +
    secondary * previous.b +
    primary * current.r +
    secondary * current.g +
    tertiary * current.b
  let g :=
    tertiary * previous.b +
    secondary * current.r +
    primary * current.g +
    secondary * current.b +
    tertiary * next.r
  let b :=
    tertiary * current.r +
    secondary * current.g +
    primary * current.b +
    secondary * next.r +
    tertiary * next.g
  ⟨r, g, b⟩

/-- The alpha of the "LCD Off" branch of `main`: `pow( a, 1.0/vgamma )`. -/
def gray_alpha (pow : K → K → K) (a vgamma : K) : K := pow a (1 / vgamma)

/-- The `vshift` part of `main`: `r`, `g`, `b` start as the channels of `current`,
and one of three branches, chosen by `vshift`, overwrites them with a `mix`. -/
def lcd_coverage (current previous : Vec4 K) (vshift : K) : Vec3 K :=
  let r := current.r
  let g := current.g
  let b := current.b
  if vshift ≤ 0.333 then
    let z := vshift / 0.333
    ⟨mix current.r previous.b z, mix current.g current.r z, mix current.b current.g z⟩
  else if vshift ≤ 0.666 then
    let z := (vshift - 0.33) / 0.333
    ⟨mix previous.b previous.g z, mix current.r previous.b z, mix current.g current.r z⟩
  else if vshift < 1.0 then
    let z := (vshift - 0.66) / 0.334
    ⟨mix previous.g previous.r z, mix previous.b previous.g z, mix current.r previous.b z⟩
  else
    ⟨r, g, b⟩

/-- The guards of the three `vshift` branches of `main`, in the order the code tests them:
the number of the branch that runs (1, 2 or 3), or 0 when none does. -/
def shift_branch (vshift : K) : Nat :=
  if vshift ≤ 0.333 then 1
  else if vshift ≤ 0.666 then 2
  else if vshift < 1.0 then 3
  else 0

/-- The local `z` of the first branch: `vshift/0.333`. -/
def z_first (vshift : K) : K := vshift / 0.333

/-- The local `z` of the second branch: `(vshift-0.33)/0.333`. -/
def z_second (vshift : K) : K := (vshift - 0.33) / 0.333

/-- The local `z` of the third branch: `(vshift-0.66)/0.334`. -/
def z_third (vshift : K) : K := (vshift - 0.66) / 0.334

/-- The three assignments of the first branch, for a given `z`. -/
def coverage_first (current previous : Vec4 K) (z : K) : Vec3 K :=
  ⟨mix current.r previous.b z, mix current.g current.r z, mix current.b current.g z⟩

/-- The three assignments of the second branch, for a given `z`. -/
def coverage_second (current previous : Vec4 K) (z : K) : Vec3 K :=
  ⟨mix previous.b previous.g z, mix current.r previous.b z, mix current.g current.r z⟩

/-- The three assignments of the third branch, for a given `z`. -/
def coverage_third (current previous : Vec4 K) (z : K) : Vec3 K :=
  ⟨mix previous.g previous.r z, mix previous.b previous.g z, mix current.r previous.b z⟩

/-- The `z` that `main` passes to `mix` for a given `vshift`: the `z` of the branch that
runs, or `none` when no branch runs. -/
def shift_z (vshift : K) : Option K :=
  if vshift ≤ 0.333 then some (vshift / 0.333)
  else if vshift ≤ 0.666 then some ((vshift - 0.33) / 0.333)
  else if vshift < 1.0 then some ((vshift - 0.66) / 0.334)
  else none

/-- The end of `main`: from the coverage triple `r`, `g`, `b` and the colour `vcolor`
to `gl_FragColor`. -/
def lcd_blend (vcolor : Vec4 K) (r g b : K) : Vec4 K :=
  let t := max (max r g) b
  let color : Vec4 K := ⟨vcolor.r, vcolor.g, vcolor.b, (r + g + b) / 3⟩
  let color := Vec4.add (Vec4.smul t color) (Vec4.smul (1 - t) ⟨r, g, b, min (min r g) b⟩)
  ⟨color.r, color.g, color.b, vcolor.a * color.a⟩

/-- The "LCD On" part of `main`, from the three samples on. -/
def lcd_on (pow : K → K → K) (vcolor current previous next : Vec4 K) (vshift vgamma : K) :
    Vec4 K :=
  let current := Vec4.pow pow current (1 / vgamma)
  let previous := Vec4.pow pow previous (1 / vgamma)
  let c := lcd_coverage current previous vshift
  lcd_blend vcolor c.r c.g c.b

/-- The fragment stage `main`; the result is the value written to `gl_FragColor`.
The uniforms `tex` and `pixel` and the varyings `vcolor`, `vtex_coord`, `vshift`, `vgamma`
are arguments; `texture2D(tex, p)` is `tex p`. -/
def main (pow : K → K → K) (tex : Vec2 K → Vec4 K) (pixel : Vec3 K)
    (vcolor : Vec4 K) (vtex_coord : Vec2 K) (vshift vgamma : K) : Vec4 K :=
  if pixel.z = 1 then
    let a := (tex vtex_coord).r
    Vec4.scale vcolor (gray_alpha pow a vgamma)
  else
    let current := tex vtex_coord
    let previous := tex (Vec2.add vtex_coord (Vec2.mul ⟨-1, 0⟩ pixel.xy))
    let next := tex (Vec2.add vtex_coord (Vec2.mul ⟨1, 0⟩ pixel.xy))
    lcd_on pow vcolor current previous next vshift vgamma

end frag

end shader_text_frag

/-! ## The text object `FreetypeGlText` -/

namespace FreetypeGlText

variable {F M T : Type}

end FreetypeGlText

end ftgl

/-! ## Properties of the fragment stage -/

namespace ftgl

namespace shader_text_frag

section lemmas

variable {K : Type} [LinearOrderedField K]

/-- The coverage triple is the result of the branch that `shift_branch` names, at the `z`
of that branch. -/
lemma lcd_coverage_eq_branch (current previous : Vec4 K) (vshift : K) :
    lcd_coverage current previous vshift =
      (if shift_branch vshift = 1 then coverage_first current previous (z_first vshift)
       else if shift_branch vshift = 2 then coverage_second current previous (z_second vshift)
       else if shift_branch vshift = 3 then coverage_third current previous (z_third vshift)
       else ⟨current.r, current.g, current.b⟩) := by
  unfold lcd_coverage shift_branch coverage_first coverage_second coverage_third
    z_first z_second z_third
  by_cases h1 : vshift ≤ 0.333
  · simp [h1]
  · by_cases h2 : vshift ≤ 0.666
    · simp [h1, h2]
    · by_cases h3 : vshift < 1.0
      · simp [h1, h2, h3]
      · simp [h1, h2, h3]

/-- The `z` that reaches `mix` is the `z` of the branch that `shift_branch` names. -/
lemma shift_z_eq_branch (vshift : K) :
    shift_z vshift =
      (if shift_branch vshift = 1 then some (z_first vshift)
       else if shift_branch vshift = 2 then some (z_second vshift)
       else if shift_branch vshift = 3 then some (z_third vshift)
       else none) := by
  unfold shift_z shift_branch z_first z_second z_third
  by_cases h1 : vshift ≤ 0.333
  · simp [h1]
  · by_cases h2 : vshift ≤ 0.666
    · simp [h1, h2]
    · by_cases h3 : vshift < 1.0
      · simp [h1, h2, h3]
      · simp [h1, h2, h3]

/-- The value `lcd_blend` returns, component by component. -/
lemma lcd_blend_components (vcolor : Vec4 K) (r g b : K) :
    lcd_blend vcolor r g b =
      ⟨max (max r g) b * vcolor.r + (1 - max (max r g) b) * r,
       max (max r g) b * vcolor.g + (1 - max (max r g) b) * g,
       max (max r g) b * vcolor.b + (1 - max (max r g) b) * b,
       vcolor.a * (max (max r g) b * ((r + g + b) / 3)
         + (1 - max (max r g) b) * min (min r g) b)⟩ := rfl

/-- A convex combination of two numbers of [0, 1] is in [0, 1]. -/
lemma convex_unit (t x y : K) (ht0 : 0 ≤ t) (ht1 : t ≤ 1) (hx0 : 0 ≤ x) (hx1 : x ≤ 1)
    (hy0 : 0 ≤ y) (hy1 : y ≤ 1) :
    0 ≤ t * x + (1 - t) * y ∧ t * x + (1 - t) * y ≤ 1 := by
  have hs0 : 0 ≤ 1 - t := sub_nonneg.mpr ht1
  refine ⟨add_nonneg (mul_nonneg ht0 hx0) (mul_nonneg hs0 hy0), ?_⟩
  nlinarith [mul_nonneg ht0 (sub_nonneg.mpr hx1), mul_nonneg hs0 (sub_nonneg.mpr hy1)]

/-- A convex combination of `lo ≤ hi` lies between them. -/
lemma convex_between (t lo hi : K) (ht0 : 0 ≤ t) (ht1 : t ≤ 1) (h : lo ≤ hi) :
    lo ≤ t * hi + (1 - t) * lo ∧ t * hi + (1 - t) * lo ≤ hi := by
  have hs0 : 0 ≤ 1 - t := sub_nonneg.mpr ht1
  constructor
  · nlinarith [mul_nonneg ht0 (sub_nonneg.mpr h)]
  · nlinarith [mul_nonneg hs0 (sub_nonneg.mpr h)]

lemma lcd_blend_r (vcolor : Vec4 K) (r g b : K) :
    (lcd_blend vcolor r g b).r = max (max r g) b * vcolor.r + (1 - max (max r g) b) * r := rfl

lemma lcd_blend_g (vcolor : Vec4 K) (r g b : K) :
    (lcd_blend vcolor r g b).g = max (max r g) b * vcolor.g + (1 - max (max r g) b) * g := rfl

lemma lcd_blend_b (vcolor : Vec4 K) (r g b : K) :
    (lcd_blend vcolor r g b).b = max (max r g) b * vcolor.b + (1 - max (max r g) b) * b := rfl

lemma lcd_blend_a (vcolor : Vec4 K) (r g b : K) :
    (lcd_blend vcolor r g b).a =
      vcolor.a * (max (max r g) b * ((r + g + b) / 3)
        + (1 - max (max r g) b) * min (min r g) b) := rfl

/-- The "LCD On" path never reads its `next` argument. -/
lemma lcd_on_next_irrelevant (pow : K → K → K) (vcolor current previous next next2 : Vec4 K)
    (vshift vgamma : K) :
    lcd_on pow vcolor current previous next vshift vgamma =
      lcd_on pow vcolor current previous next2 vshift vgamma := rfl

/-- Two textures that agree at the current and at the previous texel give the same
fragment colour. -/
lemma main_congr_tex (pow : K → K → K) (tex tex2 : Vec2 K → Vec4 K) (pixel : Vec3 K)
    (vcolor : Vec4 K) (vtex_coord : Vec2 K) (vshift vgamma : K)
    (hcur : tex vtex_coord = tex2 vtex_coord)
    (hprev : tex (Vec2.add vtex_coord (Vec2.mul ⟨-1, 0⟩ pixel.xy))
      = tex2 (Vec2.add vtex_coord (Vec2.mul ⟨-1, 0⟩ pixel.xy))) :
    main pow tex pixel vcolor vtex_coord vshift vgamma
      = main pow tex2 pixel vcolor vtex_coord vshift vgamma := by
  unfold main lcd_on
  simp only [hcur, hprev]

end lemmas

end shader_text_frag

end ftgl

/-! ## The claims -/

namespace ftgl

namespace shader_text_frag

section claims

variable {K : Type} [LinearOrderedField K]

/-- C1: the final blend of the LCD path. For every coverage triple `(r, g, b)` and every
markup colour `vcolor`, with `t = max(r, g, b)`, the output rgb is
`t * vcolor.rgb + (1 - t) * (r, g, b)` and the output alpha is
`vcolor.a * (t * (r + g + b) / 3 + (1 - t) * min(r, g, b))`; and the colour the LCD path
returns is this blend at the coverage triple computed from the gamma-corrected samples. -/
theorem lcd_blend_formula (pow : K → K → K) (vcolor current previous next : Vec4 K)
    (vshift vgamma r g b : K) :
    lcd_blend vcolor r g b =
        ⟨max (max r g) b * vcolor.r + (1 - max (max r g) b) * r,
         max (max r g) b * vcolor.g + (1 - max (max r g) b) * g,
         max (max r g) b * vcolor.b + (1 - max (max r g) b) * b,
         vcolor.a * (max (max r g) b * (r + g + b) / 3
           + (1 - max (max r g) b) * min (min r g) b)⟩
      ∧ lcd_on pow vcolor current previous next vshift vgamma =
        lcd_blend vcolor
          (lcd_coverage (Vec4.pow pow current (1 / vgamma))
            (Vec4.pow pow previous (1 / vgamma)) vshift).r
          (lcd_coverage (Vec4.pow pow current (1 / vgamma))
            (Vec4.pow pow previous (1 / vgamma)) vshift).g
          (lcd_coverage (Vec4.pow pow current (1 / vgamma))
            (Vec4.pow pow previous (1 / vgamma)) vshift).b := by
  refine ⟨?_, rfl⟩
  rw [lcd_blend_components, mul_div_assoc]

/-- C6: the weights of `energy_distribution` sum to 1 for each output channel:
tertiary + secondary + primary + secondary + tertiary = 1, the three channels are the
weighted sums of the five neighbouring subpixel samples with these weights, and so equal
samples `c` everywhere give the triple `(c, c, c)`. No shift value enters the function. -/
theorem energy_distribution_weights (previous current next : Vec4 K) (c : K) :
    (tertiary + secondary + primary + secondary + tertiary : K) = 1
      ∧ energy_distribution previous current next =
          ⟨tertiary * previous.g + secondary * previous.b + primary * current.r
              + secondary * current.g + tertiary * current.b,
           tertiary * previous.b + secondary * current.r + primary * current.g
              + secondary * current.b + tertiary * next.r,
           tertiary * current.r + secondary * current.g + primary * current.b
              + secondary * next.r + tertiary * next.g⟩
      ∧ energy_distribution (⟨c, c, c, c⟩ : Vec4 K) ⟨c, c, c, c⟩ ⟨c, c, c, c⟩ = ⟨c, c, c⟩ := by
  refine ⟨?_, rfl, ?_⟩
  · simp only [tertiary, secondary, primary]
    norm_num
  · simp only [energy_distribution, tertiary, secondary, primary]
    congr 1 <;> ring

/-- C10: the final blend of the LCD path keeps colours in range. For a coverage triple and a
markup colour with all components in [0, 1], each rgb component of the output is in [0, 1]
and the output alpha is between `vcolor.a * min(r, g, b)` and `vcolor.a * (r + g + b) / 3`,
hence in `[0, vcolor.a]`; full coverage gives the markup colour and zero coverage gives
`(0, 0, 0, 0)`. -/
theorem lcd_blend_in_range (vcolor : Vec4 K) (r g b : K)
    (hr : 0 ≤ r ∧ r ≤ 1) (hg : 0 ≤ g ∧ g ≤ 1) (hb : 0 ≤ b ∧ b ≤ 1)
    (hcr : 0 ≤ vcolor.r ∧ vcolor.r ≤ 1) (hcg : 0 ≤ vcolor.g ∧ vcolor.g ≤ 1)
    (hcb : 0 ≤ vcolor.b ∧ vcolor.b ≤ 1) (hca : 0 ≤ vcolor.a ∧ vcolor.a ≤ 1) :
    (0 ≤ (lcd_blend vcolor r g b).r ∧ (lcd_blend vcolor r g b).r ≤ 1)
      ∧ (0 ≤ (lcd_blend vcolor r g b).g ∧ (lcd_blend vcolor r g b).g ≤ 1)
      ∧ (0 ≤ (lcd_blend vcolor r g b).b ∧ (lcd_blend vcolor r g b).b ≤ 1)
      ∧ (vcolor.a * min (min r g) b ≤ (lcd_blend vcolor r g b).a
          ∧ (lcd_blend vcolor r g b).a ≤ vcolor.a * (r + g + b) / 3)
      ∧ (0 ≤ (lcd_blend vcolor r g b).a ∧ (lcd_blend vcolor r g b).a ≤ vcolor.a)
      ∧ lcd_blend vcolor 1 1 1 = vcolor
      ∧ lcd_blend vcolor 0 0 0 = ⟨0, 0, 0, 0⟩ := by
  obtain ⟨hr0, hr1⟩ := hr
  obtain ⟨hg0, hg1⟩ := hg
  obtain ⟨hb0, hb1⟩ := hb
  obtain ⟨hcr0, hcr1⟩ := hcr
  obtain ⟨hcg0, hcg1⟩ := hcg
  obtain ⟨hcb0, hcb1⟩ := hcb
  obtain ⟨hca0, hca1⟩ := hca
  have ht0 : 0 ≤ max (max r g) b := le_trans hb0 (le_max_right _ _)
  have ht1 : max (max r g) b ≤ 1 := max_le (max_le hr1 hg1) hb1
  have hm0 : 0 ≤ min (min r g) b := le_min (le_min hr0 hg0) hb0
  have hmr : min (min r g) b ≤ r := le_trans (min_le_left _ _) (min_le_left _ _)
  have hmg : min (min r g) b ≤ g := le_trans (min_le_left _ _) (min_le_right _ _)
  have hmb : min (min r g) b ≤ b := min_le_right _ _
  have hs0 : 0 ≤ 1 - max (max r g) b := sub_nonneg.mpr ht1
  have hmean : min (min r g) b ≤ (r + g + b) / 3 := by linarith
  have hmean1 : (r + g + b) / 3 ≤ 1 := by linarith
  have hin := convex_between (max (max r g) b) (min (min r g) b) ((r + g + b) / 3)
    ht0 ht1 hmean
  have e1 : lcd_blend vcolor 1 1 1 = vcolor := by
    rw [lcd_blend_components]
    cases vcolor
    simp
    norm_num
  have e0 : lcd_blend vcolor 0 0 0 = ⟨0, 0, 0, 0⟩ := by
    rw [lcd_blend_components]
    simp
  refine ⟨?_, ?_, ?_, ?_, ?_, e1, e0⟩
  · rw [lcd_blend_r]
    exact convex_unit _ _ _ ht0 ht1 hcr0 hcr1 hr0 hr1
  · rw [lcd_blend_g]
    exact convex_unit _ _ _ ht0 ht1 hcg0 hcg1 hg0 hg1
  · rw [lcd_blend_b]
    exact convex_unit _ _ _ ht0 ht1 hcb0 hcb1 hb0 hb1
  · rw [lcd_blend_a, mul_div_assoc]
    exact ⟨mul_le_mul_of_nonneg_left hin.1 hca0, mul_le_mul_of_nonneg_left hin.2 hca0⟩
  · rw [lcd_blend_a]
    refine ⟨mul_nonneg hca0 (le_trans hm0 hin.1), ?_⟩
    calc vcolor.a * (max (max r g) b * ((r + g + b) / 3)
            + (1 - max (max r g) b) * min (min r g) b)
        ≤ vcolor.a * 1 := mul_le_mul_of_nonneg_left (le_trans hin.2 hmean1) hca0
      _ = vcolor.a := mul_one _

/-- The range theorem C10 at the coverage triple (1/2, 1/4, 3/4) and the markup colour
(1, 1/2, 0, 1/2), over the rationals. -/
theorem lcd_blend_in_range_witness :
    ((0 : ℚ) ≤ 1/2 ∧ (1/2 : ℚ) ≤ 1) ∧ ((0 : ℚ) ≤ 1/4 ∧ (1/4 : ℚ) ≤ 1)
      ∧ ((0 : ℚ) ≤ 3/4 ∧ (3/4 : ℚ) ≤ 1)
      ∧ (0 ≤ (lcd_blend (⟨1, 1/2, 0, 1/2⟩ : Vec4 ℚ) (1/2) (1/4) (3/4)).r
          ∧ (lcd_blend (⟨1, 1/2, 0, 1/2⟩ : Vec4 ℚ) (1/2) (1/4) (3/4)).r ≤ 1)
      ∧ ((1/2 : ℚ) * min (min (1/2) (1/4)) (3/4)
            ≤ (lcd_blend (⟨1, 1/2, 0, 1/2⟩ : Vec4 ℚ) (1/2) (1/4) (3/4)).a
          ∧ (lcd_blend (⟨1, 1/2, 0, 1/2⟩ : Vec4 ℚ) (1/2) (1/4) (3/4)).a
            ≤ (1/2 : ℚ) * (1/2 + 1/4 + 3/4) / 3) :=
  have h := lcd_blend_in_range (⟨1, 1/2, 0, 1/2⟩ : Vec4 ℚ) (1/2) (1/4) (3/4)
    (by norm_num) (by norm_num) (by norm_num) (by norm_num) (by norm_num) (by norm_num)
    (by norm_num)
  ⟨by norm_num, by norm_num, by norm_num, h.1, h.2.2.2.1⟩

/-- C2 as stated fails: there are no inputs that differ only in the next-texel sample (the
textures agree at the current and at the previous texel, everything else is shared) and
give different fragment colours. -/
theorem next_texel_never_contributes :
    ¬ ∃ (pow : ℝ → ℝ → ℝ) (tex tex2 : Vec2 ℝ → Vec4 ℝ) (pixel : Vec3 ℝ) (vcolor : Vec4 ℝ)
        (vtex_coord : Vec2 ℝ) (vshift vgamma : ℝ),
        0 ≤ vshift ∧ vshift < 1
          ∧ tex vtex_coord = tex2 vtex_coord
          ∧ tex (Vec2.add vtex_coord (Vec2.mul ⟨-1, 0⟩ pixel.xy))
              = tex2 (Vec2.add vtex_coord (Vec2.mul ⟨-1, 0⟩ pixel.xy))
          ∧ main pow tex pixel vcolor vtex_coord vshift vgamma
              ≠ main pow tex2 pixel vcolor vtex_coord vshift vgamma := by
  rintro ⟨pow, tex, tex2, pixel, vcolor, vtex_coord, vshift, vgamma, -, -, hcur, hprev, hne⟩
  exact hne (main_congr_tex pow tex tex2 pixel vcolor vtex_coord vshift vgamma hcur hprev)

/-- C2, amended: in LCD mode the fragment colour is the final blend of the coverage triple
computed from the current and the previous texel sample only, each gamma-corrected with
exponent `1/vgamma`; the next-texel sample is fetched and not used, so two textures that
agree at the current and at the previous texel give the same colour. -/
theorem lcd_uses_current_and_previous (pow : K → K → K) (tex tex2 : Vec2 K → Vec4 K)
    (pixel : Vec3 K) (vcolor : Vec4 K) (vtex_coord : Vec2 K) (vshift vgamma : K)
    (hlcd : pixel.z ≠ 1)
    (hcur : tex vtex_coord = tex2 vtex_coord)
    (hprev : tex (Vec2.add vtex_coord (Vec2.mul ⟨-1, 0⟩ pixel.xy))
      = tex2 (Vec2.add vtex_coord (Vec2.mul ⟨-1, 0⟩ pixel.xy))) :
    main pow tex pixel vcolor vtex_coord vshift vgamma =
        lcd_blend vcolor
          (lcd_coverage (Vec4.pow pow (tex vtex_coord) (1 / vgamma))
            (Vec4.pow pow (tex (Vec2.add vtex_coord (Vec2.mul ⟨-1, 0⟩ pixel.xy))) (1 / vgamma))
            vshift).r
          (lcd_coverage (Vec4.pow pow (tex vtex_coord) (1 / vgamma))
            (Vec4.pow pow (tex (Vec2.add vtex_coord (Vec2.mul ⟨-1, 0⟩ pixel.xy))) (1 / vgamma))
            vshift).g
          (lcd_coverage (Vec4.pow pow (tex vtex_coord) (1 / vgamma))
            (Vec4.pow pow (tex (Vec2.add vtex_coord (Vec2.mul ⟨-1, 0⟩ pixel.xy))) (1 / vgamma))
            vshift).b
      ∧ main pow tex2 pixel vcolor vtex_coord vshift vgamma
          = main pow tex pixel vcolor vtex_coord vshift vgamma := by
  refine ⟨?_, (main_congr_tex pow tex tex2 pixel vcolor vtex_coord vshift vgamma hcur hprev).symm⟩
  unfold main lcd_on
  rw [if_neg hlcd]

/-- The amended C2 at two textures over the rationals that differ exactly at the next
texel `(1, 0)`, with `pixel = (1, 0, 0)`, `vtex_coord = (0, 0)`, `vshift = 1/2`. -/
theorem lcd_uses_current_and_previous_witness :
    (fun p : Vec2 ℚ => if p.x = 1 then (⟨0, 0, 0, 0⟩ : Vec4 ℚ) else ⟨1, 1, 1, 1⟩) ⟨1, 0⟩
        ≠ (fun _ : Vec2 ℚ => (⟨1, 1, 1, 1⟩ : Vec4 ℚ)) ⟨1, 0⟩
      ∧ main (fun x _ => x) (fun _ : Vec2 ℚ => (⟨1, 1, 1, 1⟩ : Vec4 ℚ)) ⟨1, 0, 0⟩
          ⟨1, 1, 1, 1⟩ ⟨0, 0⟩ (1/2) 1
        = main (fun x _ => x)
          (fun p : Vec2 ℚ => if p.x = 1 then (⟨0, 0, 0, 0⟩ : Vec4 ℚ) else ⟨1, 1, 1, 1⟩)
          ⟨1, 0, 0⟩ ⟨1, 1, 1, 1⟩ ⟨0, 0⟩ (1/2) 1 :=
  ⟨by simp,
   (lcd_uses_current_and_previous (fun x _ => x)
      (fun p : Vec2 ℚ => if p.x = 1 then (⟨0, 0, 0, 0⟩ : Vec4 ℚ) else ⟨1, 1, 1, 1⟩)
      (fun _ : Vec2 ℚ => (⟨1, 1, 1, 1⟩ : Vec4 ℚ)) ⟨1, 0, 0⟩ ⟨1, 1, 1, 1⟩ ⟨0, 0⟩ (1/2) 1
      (by simp [Vec3.z]) (by simp) (by norm_num [Vec2.add, Vec2.mul, Vec3.xy])).2⟩

/-- C3: the fragment stage has two paths, chosen by `pixel.z`. When `pixel.z = 1` the output
is `vcolor * a^(1/vgamma)` in all four components, `a` being the red channel of the sample
at the current texture coordinate, and it is the same for any other shift, any other
`pixel.xy` and any other texture with that same red value at the current coordinate; for
every other value of `pixel.z` the output is that of the LCD path on the three samples. -/
theorem two_paths (pow : K → K → K) (tex tex2 : Vec2 K → Vec4 K) (pixel pixel2 pixel3 : Vec3 K)
    (vcolor : Vec4 K) (vtex_coord : Vec2 K) (vshift vshift2 vgamma : K)
    (hoff : pixel.z = 1) (hoff2 : pixel2.z = 1) (hon : pixel3.z ≠ 1)
    (hsample : (tex2 vtex_coord).r = (tex vtex_coord).r) :
    main pow tex pixel vcolor vtex_coord vshift vgamma =
        ⟨vcolor.r * pow (tex vtex_coord).r (1 / vgamma),
         vcolor.g * pow (tex vtex_coord).r (1 / vgamma),
         vcolor.b * pow (tex vtex_coord).r (1 / vgamma),
         vcolor.a * pow (tex vtex_coord).r (1 / vgamma)⟩
      ∧ main pow tex2 pixel2 vcolor vtex_coord vshift2 vgamma
          = main pow tex pixel vcolor vtex_coord vshift vgamma
      ∧ main pow tex pixel3 vcolor vtex_coord vshift vgamma =
          lcd_on pow vcolor (tex vtex_coord)
            (tex (Vec2.add vtex_coord (Vec2.mul ⟨-1, 0⟩ pixel3.xy)))
            (tex (Vec2.add vtex_coord (Vec2.mul ⟨1, 0⟩ pixel3.xy))) vshift vgamma := by
  refine ⟨?_, ?_, ?_⟩
  · unfold main
    rw [if_pos hoff]
    rfl
  · unfold main
    rw [if_pos hoff, if_pos hoff2]
    simp only [hsample]
  · unfold main
    rw [if_neg hon]

/-- The two-path theorem C3 over the rationals, with `pow x y = x`, at the textures
`p ↦ (1/2, p.x, p.y, 1)` and `p ↦ (1/2, 0, 0, 0)` and the pixels `(0, 0, 1)`, `(3, 4, 1)`
(LCD off) and `(1, 0, 0)` (LCD on). -/
theorem two_paths_witness :
    (⟨0, 0, 1⟩ : Vec3 ℚ).z = 1 ∧ (⟨3, 4, 1⟩ : Vec3 ℚ).z = 1 ∧ (⟨1, 0, 0⟩ : Vec3 ℚ).z ≠ 1
      ∧ main (fun x _ => x) (fun p : Vec2 ℚ => (⟨1/2, p.x, p.y, 1⟩ : Vec4 ℚ)) ⟨0, 0, 1⟩
          ⟨1, 1/2, 0, 1⟩ ⟨0, 0⟩ (1/4) 2 = ⟨1 * (1/2), 1/2 * (1/2), 0 * (1/2), 1 * (1/2)⟩
      ∧ main (fun x _ => x) (fun _ : Vec2 ℚ => (⟨1/2, 0, 0, 0⟩ : Vec4 ℚ)) ⟨3, 4, 1⟩
          ⟨1, 1/2, 0, 1⟩ ⟨0, 0⟩ (3/4) 2
        = main (fun x _ => x) (fun p : Vec2 ℚ => (⟨1/2, p.x, p.y, 1⟩ : Vec4 ℚ)) ⟨0, 0, 1⟩
          ⟨1, 1/2, 0, 1⟩ ⟨0, 0⟩ (1/4) 2 :=
  have h := two_paths (fun x _ => x) (fun p : Vec2 ℚ => (⟨1/2, p.x, p.y, 1⟩ : Vec4 ℚ))
    (fun _ : Vec2 ℚ => (⟨1/2, 0, 0, 0⟩ : Vec4 ℚ)) ⟨0, 0, 1⟩ ⟨3, 4, 1⟩ ⟨1, 0, 0⟩
    ⟨1, 1/2, 0, 1⟩ ⟨0, 0⟩ (1/4) (3/4) 2 rfl rfl (by simp [Vec3.z]) rfl
  ⟨rfl, rfl, by simp [Vec3.z], h.1, h.2.1⟩

/-- C4: over the reals, with `pow` the real power, the alpha of the grayscale path
`alpha(coverage, gamma) = coverage^(1/gamma)` is, for every `gamma > 0`, increasing in
the coverage on [0, 1] (strictly, hence also weakly), 0 at coverage 0 and 1 at coverage 1. -/
theorem gray_alpha_increasing (gamma : ℝ) (hgamma : 0 < gamma) :
    StrictMonoOn (fun coverage : ℝ => gray_alpha Real.rpow coverage gamma) (Set.Icc 0 1)
      ∧ MonotoneOn (fun coverage : ℝ => gray_alpha Real.rpow coverage gamma) (Set.Icc 0 1)
      ∧ gray_alpha Real.rpow 0 gamma = 0
      ∧ gray_alpha Real.rpow 1 gamma = 1 := by
  have hexp : 0 < 1 / gamma := one_div_pos.mpr hgamma
  have hstrict :
      StrictMonoOn (fun coverage : ℝ => gray_alpha Real.rpow coverage gamma) (Set.Icc 0 1) := by
    intro x hx y _ hxy
    simp only [gray_alpha, Real.rpow_eq_pow]
    exact Real.rpow_lt_rpow hx.1 hxy hexp
  refine ⟨hstrict, hstrict.monotoneOn, ?_, ?_⟩
  · simp only [gray_alpha, Real.rpow_eq_pow]
    exact Real.zero_rpow (ne_of_gt hexp)
  · simp only [gray_alpha, Real.rpow_eq_pow]
    exact Real.one_rpow _

/-- The grayscale alpha theorem C4 at `gamma = 2`: coverage 0 gives alpha 0, coverage 1
gives alpha 1. -/
theorem gray_alpha_increasing_witness :
    (0 : ℝ) < 2 ∧ gray_alpha Real.rpow 0 2 = 0 ∧ gray_alpha Real.rpow 1 2 = 1 :=
  ⟨by norm_num, (gray_alpha_increasing 2 (by norm_num)).2.2⟩

/-- C5 as stated fails: the shifts 0.6661 and 0.9999 both take the third branch and lie more
than one third apart, so the third sub-range covers more than a third of [0, 1); and the
shift 0.3332, which is below one third, already takes the second branch. -/
theorem shift_ranges_not_thirds :
    shift_branch (0.6661 : ℚ) = 3 ∧ shift_branch (0.9999 : ℚ) = 3
      ∧ (1 / 3 : ℚ) < 0.9999 - 0.6661
      ∧ shift_branch (0.3332 : ℚ) = 2 ∧ (0.3332 : ℚ) < 1 / 3 := by
  refine ⟨?_, ?_, ?_, ?_, ?_⟩ <;> norm_num [shift_branch]

/-- C5, amended: for every shift in [0, 1) exactly one of the three interpolation branches
is taken, and it computes the coverage triple: the first for shift in [0, 0.333], the second
for shift in (0.333, 0.666], the third for shift in (0.666, 1); the three sub-ranges have
the lengths 0.333, 0.333 and 0.334. -/
theorem shift_ranges (current previous : Vec4 K) (vshift : K)
    (h0 : 0 ≤ vshift) (h1 : vshift < 1) :
    (shift_branch vshift = 1 ∨ shift_branch vshift = 2 ∨ shift_branch vshift = 3)
      ∧ (shift_branch vshift = 1 ↔ 0 ≤ vshift ∧ vshift ≤ 0.333)
      ∧ (shift_branch vshift = 2 ↔ 0.333 < vshift ∧ vshift ≤ 0.666)
      ∧ (shift_branch vshift = 3 ↔ 0.666 < vshift)
      ∧ ((0.333 : K) - 0 = 0.333 ∧ (0.666 : K) - 0.333 = 0.333 ∧ (1 : K) - 0.666 = 0.334)
      ∧ lcd_coverage current previous vshift =
          (if shift_branch vshift = 1 then coverage_first current previous (z_first vshift)
           else if shift_branch vshift = 2 then
            coverage_second current previous (z_second vshift)
           else coverage_third current previous (z_third vshift)) := by
  have h1' : vshift < 1.0 := by norm_num; exact h1
  have hlt : (0.333 : K) < 0.666 := by norm_num
  rw [lcd_coverage_eq_branch current previous vshift]
  by_cases c1 : vshift ≤ 0.333
  · have hb : shift_branch vshift = 1 := by simp [shift_branch, c1]
    rw [hb]
    refine ⟨Or.inl rfl, ?_, ?_, ?_, by norm_num, by simp⟩
    · simp [c1, h0]
    · simp [not_lt.mpr c1]
    · simpa using le_trans c1 hlt.le
  · by_cases c2 : vshift ≤ 0.666
    · have hb : shift_branch vshift = 2 := by simp [shift_branch, c1, c2]
      rw [hb]
      refine ⟨Or.inr (Or.inl rfl), ?_, ?_, ?_, by norm_num, by simp⟩
      · simp [c1]
      · simp [not_le.mp c1, c2]
      · simpa using c2
    · have hb : shift_branch vshift = 3 := by simp [shift_branch, c1, c2, h1']
      rw [hb]
      refine ⟨Or.inr (Or.inr rfl), ?_, ?_, ?_, by norm_num, by simp⟩
      · simp [c1]
      · simp [c2]
      · simpa using c2

/-- The amended C5 at the shift 1/2 over the rationals, which takes the second branch. -/
theorem shift_ranges_witness :
    (0 : ℚ) ≤ 1 / 2 ∧ (1 / 2 : ℚ) < 1
      ∧ (shift_branch (1 / 2 : ℚ) = 2 ↔ (0.333 : ℚ) < 1 / 2 ∧ (1 / 2 : ℚ) ≤ 0.666) :=
  ⟨by norm_num, by norm_num,
   (shift_ranges (⟨1, 1, 1, 1⟩ : Vec4 ℚ) ⟨0, 0, 0, 0⟩ (1 / 2)
      (by norm_num) (by norm_num)).2.2.1⟩

/-- C8 fails on the code: at `vshift = 0.665` the second branch runs with
`z = (0.665 - 0.33)/0.333 = 335/333 > 1`, and with the current sample (1, 1, 1, 1) and the
previous sample (0, 0, 0, 0) the green coverage is `-2/333`, outside the two samples it
mixes; at `vshift = 0.999` the third branch runs with `z = 339/334 > 1`. -/
theorem mix_parameter_exceeds_one :
    shift_branch (0.665 : ℚ) = 2
      ∧ shift_z (0.665 : ℚ) = some (335 / 333) ∧ (1 : ℚ) < 335 / 333
      ∧ lcd_coverage (⟨1, 1, 1, 1⟩ : Vec4 ℚ) ⟨0, 0, 0, 0⟩ 0.665 = ⟨0, -2 / 333, 1⟩
      ∧ shift_branch (0.999 : ℚ) = 3
      ∧ shift_z (0.999 : ℚ) = some (339 / 334) ∧ (1 : ℚ) < 339 / 334 := by
  refine ⟨?_, ?_, ?_, ?_, ?_, ?_, ?_⟩ <;> norm_num [shift_branch, shift_z, lcd_coverage, mix]

/-- C9 fails on the code at both boundaries, here with the current sample (1, 1, 1, 1) and
the previous sample (0, 0, 0, 0): at `vshift = 0.333` the first branch gives (0, 1, 1) and
the formula of the second branch gives (0, 110/111, 1); at `vshift = 0.666` the second
branch gives (0, -1/111, 1) and the formula of the third branch gives (0, 0, 164/167).
At `vshift = 0` the triple is the current sample. -/
theorem coverage_jumps_at_boundaries :
    lcd_coverage (⟨1, 1, 1, 1⟩ : Vec4 ℚ) ⟨0, 0, 0, 0⟩ 0.333 = ⟨0, 1, 1⟩
      ∧ coverage_second (⟨1, 1, 1, 1⟩ : Vec4 ℚ) ⟨0, 0, 0, 0⟩ (z_second 0.333)
          = ⟨0, 110 / 111, 1⟩
      ∧ lcd_coverage (⟨1, 1, 1, 1⟩ : Vec4 ℚ) ⟨0, 0, 0, 0⟩ 0.666 = ⟨0, -1 / 111, 1⟩
      ∧ coverage_third (⟨1, 1, 1, 1⟩ : Vec4 ℚ) ⟨0, 0, 0, 0⟩ (z_third 0.666)
          = ⟨0, 0, 164 / 167⟩
      ∧ lcd_coverage (⟨1, 1 / 2, 1 / 4, 1⟩ : Vec4 ℚ) ⟨0, 0, 0, 0⟩ 0 = ⟨1, 1 / 2, 1 / 4⟩ := by
  refine ⟨?_, ?_, ?_, ?_, ?_⟩ <;>
    norm_num [lcd_coverage, coverage_second, coverage_third, z_second, z_third, mix]

end claims

end shader_text_frag

section text_claims

variable {F M T E : Type}

end text_claims

end ftgl
